import Mathlib

/-!
Shallow embedding of the SecureCodeGuard fixer pipeline (src/aiFixer.ts and
src/codeActions.ts).  Code snippets are modelled as lists of characters and
the JavaScript string/regex operations used by the source are implemented
character by character, following ECMAScript semantics (leftmost match,
ordered alternation, greedy quantifiers) for the concrete regular
expressions appearing in the source.
-/

/-- Code text, as JavaScript strings: a sequence of characters. -/
abbrev Str := List Char

/-- The apostrophe character (singular quote), written by code point. -/
def apos : Char := Char.ofNat 39

/-- The double-quote character, written by code point. -/
def dquote : Char := Char.ofNat 34

/-- JavaScript `\s` on the ASCII range: space, tab, newline, carriage
return, vertical tab, form feed. -/
def isWsChar (c : Char) : Bool :=
  c = ' ' || c = '\t' || c = '\n' || c = '\r' || c.toNat = 11 || c.toNat = 12

/-- JavaScript `\w`: ASCII letters, digits and underscore. -/
def isWordChar (c : Char) : Bool :=
  (97 ≤ c.toNat && c.toNat ≤ 122) || (65 ≤ c.toNat && c.toNat ≤ 90) ||
  (48 ≤ c.toNat && c.toNat ≤ 57) || c = '_'

/-- JavaScript `String.prototype.trim`: drop leading and trailing whitespace. -/
def trimStr (s : Str) : Str :=
  ((s.dropWhile isWsChar).reverse.dropWhile isWsChar).reverse

/-- JavaScript `String.prototype.toLowerCase` on the ASCII range. -/
def lowerStr (s : Str) : Str := s.map Char.toLower

/-- JavaScript `String.prototype.includes`: substring test. -/
def strIncludes : Str → Str → Bool
  | [], sub => sub.isEmpty
  | s@(_ :: t), sub => sub.isPrefixOf s || strIncludes t sub

/-- JavaScript `String.prototype.endsWith`. -/
def strEndsWith (s suffixPat : Str) : Bool := suffixPat.isSuffixOf s

/-- JavaScript `String.prototype.split` at newline characters (keeps empty
pieces, as `split('\n')` does). -/
def splitNl : Str → List Str
  | [] => [[]]
  | c :: t =>
    match splitNl t with
    | [] => [[c]]
    | h :: r => if c = '\n' then [] :: h :: r else (c :: h) :: r

/-- Case-sensitive literal at the head of the input: on success return the
remainder after the literal. -/
def dropLit (lit s : Str) : Option Str :=
  if lit.isPrefixOf s then some (s.drop lit.length) else none

/-- Case-insensitive literal (given in lower case) at the head of the input:
on success return the matched text in its original casing and the remainder.
This is how a literal inside a `/.../i` regex consumes input. -/
def dropLitCI : Str → Str → Option (Str × Str)
  | [], s => some ([], s)
  | _, [] => none
  | lc :: lt, c :: t =>
    if c.toLower = lc then (dropLitCI lt t).map (fun p => (c :: p.1, p.2)) else none

/-- First index of a character, as `String.prototype.indexOf` when the
character occurs (the source guards the call with `includes`). -/
def firstIdx (c : Char) (s : Str) : Nat := (s.takeWhile (· ≠ c)).length

/-- The part of the string before the first occurrence of `pat`, i.e.
`s.split(pat)[0]` in JavaScript; the whole string when `pat` does not occur. -/
def takeUntilMatch (pat : Str) : Str → Str
  | [] => []
  | s@(c :: t) => if pat.isPrefixOf s then [] else c :: takeUntilMatch pat t

/-!
## Deterministic rewriter: `MANUAL_FIX_PATTERNS` (aiFixer.ts lines 22–43)

Each entry is one concrete regex with a templated replacement.  For each
pattern we implement a matcher that, at a given start position (a suffix of
the input), either fails or returns the instantiated replacement text
together with the remainder of the input after the matched span; these
decisions follow the ECMAScript backtracking semantics of the concrete
pattern, which is deterministic here (the alternations have distinct first
characters and every greedy quantifier is followed by a character it cannot
consume, except in the `eval` pattern where the one backtracking case is
computed explicitly).
-/

/-- `(const|let|var)` under `/i`: ordered alternation of case-insensitive
keywords.  The alternatives begin with distinct letters, so at most one can
apply at a position. -/
def matchKwCI (s : Str) : Option (Str × Str) :=
  (dropLitCI "const".data s).orElse fun _ =>
  (dropLitCI "let".data s).orElse fun _ =>
  dropLitCI "var".data s

/-- Matcher for `/(const|let|var)\s+(NAME|name)\s*=\s*["'][^"']*["']/i` at a
start position, where `nameLower` is the secret variable name in lower case:
returns `(kw, name, rest)` with the two capture groups in original casing
and the remainder after the matched span. -/
def matchSecretAt (nameLower : Str) (s : Str) : Option (Str × Str × Str) :=
  match matchKwCI s with
  | none => none
  | some (kw, s1) =>
    let ws := s1.takeWhile isWsChar
    if ws.isEmpty then none
    else
      match dropLitCI nameLower (s1.dropWhile isWsChar) with
      | none => none
      | some (nm, s3) =>
        match (s3.dropWhile isWsChar) with
        | '=' :: s5 =>
          match s5.dropWhile isWsChar with
          | q :: s7 =>
            if q = dquote || q = apos then
              match s7.dropWhile (fun c => ¬(c = dquote || c = apos)) with
              | _ :: rest => some (kw, nm, rest)
              | [] => none
            else none
          | [] => none
        | _ => none

/-- Replacement template `$1 $2 = process.env.$2 || "<defaultVal>"` of the two
secret-rewrite rules. -/
def secretReplacement (kw nm defaultVal : Str) : Str :=
  kw ++ " ".data ++ nm ++ " = process.env.".data ++ nm ++ " || ".data
    ++ [dquote] ++ defaultVal ++ [dquote]

/-- Try the secret rule at one position: instantiated replacement and rest. -/
def trySecret (nameLower defaultVal : Str) (s : Str) : Option (Str × Str) :=
  (matchSecretAt nameLower s).map fun (kw, nm, rest) =>
    (secretReplacement kw nm defaultVal, rest)

/-- Matcher for `/\.innerHTML\s*=/` at a start position. -/
def tryXss (s : Str) : Option (Str × Str) :=
  match dropLit ".innerHTML".data s with
  | none => none
  | some s1 =>
    match s1.dropWhile isWsChar with
    | '=' :: rest => some (".textContent =".data, rest)
    | _ => none

/-- Matcher for `/eval\s*\(\s*([^)]+)\s*\)/` at a start position.  Writing
`w` for the run of whitespace after `(` and `k` for the index of the first
`)` after `(`, the backtracking search succeeds iff `1 ≤ k < length` and the
capture is the text from `min w (k-1)` to `k` (when the parenthesis holds
only whitespace, the greedy `\s*` gives back one character so that `[^)]+`
can consume it). -/
def tryEval (s : Str) : Option (Str × Str) :=
  match dropLit "eval".data s with
  | none => none
  | some s1 =>
    match s1.dropWhile isWsChar with
    | '(' :: u =>
      let w := (u.takeWhile isWsChar).length
      let k := (u.takeWhile (· ≠ ')')).length
      if k = 0 || k = u.length then none
      else
        let cap := (u.take k).drop (min w (k - 1))
        some ("JSON.parse".data ++ "(".data ++ cap ++ ") // TODO: Verify this is safe JSON".data,
              u.drop (k + 1))
    | _ => none

/-- Matcher for `/Math\.random\s*\(\s*\)/` at a start position. -/
def tryRandom (s : Str) : Option (Str × Str) :=
  match dropLit "Math.random".data s with
  | none => none
  | some s1 =>
    match s1.dropWhile isWsChar with
    | '(' :: u =>
      match u.dropWhile isWsChar with
      | ')' :: rest =>
        some ("crypto.getRandomValues(new Uint32Array(1))[0] / (0xFFFFFFFF + 1) // Crypto-secure random".data,
              rest)
      | _ => none
    | _ => none

/-- JavaScript `String.prototype.replace` with a non-global regex: scan for
the leftmost position where the pattern matches, splice in the instantiated
replacement, leave the remainder untouched; the input is returned unchanged
when the pattern never matches. -/
def replaceFirst (tryAt : Str → Option (Str × Str)) : Str → Str
  | [] =>
    match tryAt [] with
    | some (r, rest) => r ++ rest
    | none => []
  | s@(c :: t) =>
    match tryAt s with
    | some (r, rest) => r ++ rest
    | none => c :: replaceFirst tryAt t

/-- The `MANUAL_FIX_PATTERNS` table (aiFixer.ts lines 22–43): per category,
the `replace` operation of its rule, or `none` for an unknown category. -/
def manualFixRule (issueType : List Char) : Option (Str → Str) :=
  if issueType = "hardcoded-api-key".data then
    some (replaceFirst (trySecret "api_key".data "default_api_key".data))
  else if issueType = "hardcoded-password".data then
    some (replaceFirst (trySecret "password".data "default_password".data))
  else if issueType = "xss-vulnerability".data then
    some (replaceFirst tryXss)
  else if issueType = "code-injection".data then
    some (replaceFirst tryEval)
  else if issueType = "insecure-random".data then
    some (replaceFirst tryRandom)
  else none

/-- `applyManualFix` (aiFixer.ts lines 85–93): apply the category rule and
return its output only when it actually changed the code, else the empty
string. -/
def applyManualFix (code : Str) (issueType : List Char) : Str :=
  match manualFixRule issueType with
  | none => []
  | some rule =>
    let fixed := rule code
    if fixed ≠ code then fixed else []

/-- Trigger of the `hardcoded-api-key` branch of `detectIssueTypeFromCode`
(line 67), over the trimmed snippet. -/
def triggerApiKey (cleanCode : Str) : Bool :=
  strIncludes cleanCode "API_KEY".data && strIncludes cleanCode "=".data &&
    strIncludes cleanCode [dquote]

/-- Trigger of the `hardcoded-password` branch (line 69). -/
def triggerPassword (cleanCode : Str) : Bool :=
  strIncludes cleanCode "PASSWORD".data && strIncludes cleanCode "=".data &&
    strIncludes cleanCode [dquote]

/-- Trigger of the `xss-vulnerability` branch (line 71). -/
def triggerXss (cleanCode : Str) : Bool := strIncludes cleanCode ".innerHTML".data

/-- Trigger of the `code-injection` branch (line 73). -/
def triggerEval (cleanCode : Str) : Bool := strIncludes cleanCode "eval(".data

/-- Trigger of the `insecure-random` branch (line 75). -/
def triggerRandom (cleanCode : Str) : Bool := strIncludes cleanCode "Math.random()".data

/-- `detectIssueTypeFromCode` (aiFixer.ts lines 64–80): ordered substring
triggers over the trimmed snippet, with `security-issue` as the default. -/
def detectIssueTypeFromCode (code : Str) : List Char :=
  let cleanCode := trimStr code
  if triggerApiKey cleanCode then "hardcoded-api-key".data
  else if triggerPassword cleanCode then "hardcoded-password".data
  else if triggerXss cleanCode then "xss-vulnerability".data
  else if triggerEval cleanCode then "code-injection".data
  else if triggerRandom cleanCode then "insecure-random".data
  else "security-issue".data

/-!
## Declaration extraction: the `(?:const|let|var)\s+(\w+)` regex

Used globally by `isStructurallySimilar` (aiFixer.ts lines 98–124) and
non-globally by `validateAIResponseStrict` (line 239) and
`validateAIResponse` (line 653).
-/

/-- `(const|let|var)` case-sensitively (no `/i` on these regexes): ordered
alternation; the alternatives begin with distinct letters. -/
def matchKwCS (s : Str) : Option (Str × Str) :=
  match dropLit "const".data s with
  | some r => some ("const".data, r)
  | none =>
    match dropLit "let".data s with
    | some r => some ("let".data, r)
    | none => (dropLit "var".data s).map (fun r => ("var".data, r))

/-- Matcher for `(?:const|let|var)\s+(\w+)` at a start position: the full
matched text, the captured identifier, and the remainder after the match. -/
def matchDeclAt (s : Str) : Option (Str × Str × Str) :=
  match matchKwCS s with
  | none => none
  | some (kw, s1) =>
    let ws := s1.takeWhile isWsChar
    if ws.isEmpty then none
    else
      let s2 := s1.dropWhile isWsChar
      let nm := s2.takeWhile isWordChar
      if nm.isEmpty then none else some (kw ++ ws ++ nm, nm, s2.drop nm.length)

theorem length_dropWhile_le' (p : Char → Bool) (l : Str) : (l.dropWhile p).length ≤ l.length := by
  induction l with
  | nil => simp
  | cons a t ih =>
    by_cases h : p a <;> simp [List.dropWhile, h]
    omega

/-- Scanner of `original.match(/(?:const|let|var)\s+(\w+)/g)`: the first
argument is the number of characters still to skip because they belong to
the preceding matched span (the remainder returned by `matchDeclAt` is a
suffix of the input, so skipping `length input - length remainder`
characters resumes the scan exactly after the match, as a global regex
does). -/
def extractDeclsGo : Nat → Str → List (Str × Str)
  | _, [] => []
  | n + 1, _ :: t => extractDeclsGo n t
  | 0, c :: t =>
    match matchDeclAt (c :: t) with
    | some (m, nm, rest) => (m, nm) :: extractDeclsGo (t.length - rest.length) t
    | none => extractDeclsGo 0 t

/-- `original.match(/(?:const|let|var)\s+(\w+)/g)`: every match of the
declaration regex, left to right, continuing after each matched span; each
entry carries the full matched text and the captured identifier. -/
def extractDecls (s : Str) : List (Str × Str) := extractDeclsGo 0 s

/-- `s.match(/(?:const|let|var)\s+(\w+)/)?.[1]`: the captured identifier of
the first (leftmost) match, when any. -/
def firstDeclName : Str → Option Str
  | [] => none
  | s@(_ :: t) =>
    match matchDeclAt s with
    | some (_, nm, _) => some nm
    | none => firstDeclName t

/-- `m.replace(/(?:const|let|var)\s+/, '')` — strip the leftmost occurrence
of a declaration keyword followed by whitespace (non-global replace). -/
def stripDeclKw : Str → Str
  | [] => []
  | s@(c :: t) =>
    match matchKwCS s with
    | some (_, s1) =>
      let ws := s1.takeWhile isWsChar
      if ws.isEmpty then c :: stripDeclKw t else s1.dropWhile isWsChar
    | none => c :: stripDeclKw t

/-- `isStructurallySimilar` (aiFixer.ts lines 98–124): pass trivially on an
empty/whitespace-only original; otherwise the declaration lists must have
equal length and pairwise equal identifiers (keyword stripped). -/
def isStructurallySimilar (original fixed : Str) : Bool :=
  if original.isEmpty ∨ (trimStr original).length = 0 then true
  else
    let originalVars := extractDecls original
    let fixedVars := extractDecls fixed
    if originalVars.length ≠ fixedVars.length then false
    else (originalVars.zip fixedVars).all fun p => stripDeclKw p.1.1 == stripDeclKw p.2.1

/-!
## Strict validator and sanitizer (the path used by `getSecureRefactor`)
-/

/-- The `badPhrases` list of `validateAIResponseStrict` (line 231). -/
def badPhrasesStrict : List Str :=
  ["explanation".data, "note:".data, "comment".data, "here is".data, "fixed version".data]

/-- The three issue-coherence checks of `validateAIResponseStrict`
(lines 246–255), each an early `return false` in the source. -/
def coherenceChecks (original fixed : Str) : Bool :=
  if strIncludes original "API_KEY".data ∧ ¬strIncludes fixed "API_KEY".data then false
  else if strIncludes original "PASSWORD".data ∧ ¬strIncludes fixed "PASSWORD".data then false
  else if strIncludes original ".innerHTML".data ∧ ¬strIncludes fixed ".textContent".data ∧
      ¬strIncludes fixed ".innerHTML".data then false
  else true

/-- `validateAIResponseStrict` (aiFixer.ts lines 210–258). -/
def validateAIResponseStrict (original fixed : Str) : Bool :=
  if fixed.isEmpty then false
  else if strIncludes fixed "\n".data then false
  else if 200 < fixed.length then false
  else if ¬strIncludes fixed "=".data ∧ ¬strIncludes fixed ".".data then false
  else if badPhrasesStrict.any (fun p => strIncludes (lowerStr fixed) p) then false
  else if ¬original.isEmpty ∧ 0 < (trimStr original).length then
    match firstDeclName original with
    | some v => if ¬strIncludes fixed v then false else coherenceChecks original fixed
    | none => coherenceChecks original fixed
  else true

/-- Scanner of the global `replace(/```[\w]*\n?/g, '')`: the first argument
counts characters still to drop because they belong to the current matched
fence (language tag and optional newline, both suffix segments, so the
count `length rest - length remainder` resumes the scan exactly after the
match). -/
def removeFencesGo : Nat → Str → Str
  | _, [] => []
  | n + 1, _ :: t => removeFencesGo n t
  | 0, '`' :: '`' :: '`' :: rest =>
    let r := rest.dropWhile isWordChar
    let r2 := if r.head? = some '\n' then r.tail else r
    removeFencesGo (rest.length - r2.length) rest
  | 0, c :: t => c :: removeFencesGo 0 t

/-- Global `replace(/```[\w]*\n?/g, '')`: drop every fence marker together
with its language tag and the optional newline after it. -/
def removeFences (s : Str) : Str := removeFencesGo 0 s

/-- Global `replace(/```/g, '')`. -/
def removeTriple : Str → Str
  | '`' :: '`' :: '`' :: t => removeTriple t
  | c :: t => c :: removeTriple t
  | [] => []

/-- Global `replace(/`/g, '')`. -/
def removeTicks : Str → Str
  | '`' :: t => removeTicks t
  | c :: t => c :: removeTicks t
  | [] => []

/-- Anchored `replace(/^(Here's the fixed code:|Fixed code:|Solution:|Output:)/i, '')`
of `cleanAIResponseStrict` (line 183): ordered, case-insensitive, at the
start of the string only. -/
def stripStrictBoilerplate (s : Str) : Str :=
  match dropLitCI ("here".data ++ [apos] ++ "s the fixed code:".data) s with
  | some (_, r) => r
  | none =>
    match dropLitCI "fixed code:".data s with
    | some (_, r) => r
    | none =>
      match dropLitCI "solution:".data s with
      | some (_, r) => r
      | none =>
        match dropLitCI "output:".data s with
        | some (_, r) => r
        | none => s

/-- The line-selection predicate of `cleanAIResponseStrict` (lines 187–193). -/
def strictCodeLine (line : Str) : Bool :=
  let trimmed := trimStr line
  (strIncludes trimmed "const ".data || strIncludes trimmed "let ".data ||
   strIncludes trimmed "var ".data || strIncludes trimmed "=".data ||
   strIncludes trimmed ".textContent".data || strIncludes trimmed "process.env".data) &&
  !(strIncludes (lowerStr trimmed) "explanation".data) &&
  !(strIncludes (lowerStr trimmed) "note:".data)

/-- `cleanAIResponseStrict` (aiFixer.ts lines 170–205). -/
def cleanAIResponseStrict (response : Str) : Str :=
  if response.isEmpty ∨ (trimStr response).length = 0 then []
  else
    let c1 := trimStr response
    let c2 := removeTicks (removeTriple (removeFences c1))
    let c3 := stripStrictBoilerplate c2
    let c4 := match (splitNl c3).find? strictCodeLine with
              | some line => trimStr line
              | none => []
    if ¬c4.isEmpty ∧ ¬strEndsWith c4 ";".data ∧ ¬strEndsWith c4 "\x7d".data then
      if strIncludes c4 " = ".data ∨ strIncludes c4 ".textContent".data ∨
          strIncludes c4 ".innerHTML".data then c4 ++ ";".data
      else c4
    else c4

/-!
## Legacy validator `validateAIResponse` (aiFixer.ts lines 634–665)

Defined in the module but not called by `getSecureRefactor`'s pipeline.
-/

/-- The `badPhrases` list of `validateAIResponse` (line 659). -/
def badPhrasesLegacy : List Str :=
  ["explanation".data, "note:".data, "this is".data, "here is".data,
   "i hope".data, "let me know".data]

/-- `validateAIResponse` (aiFixer.ts lines 634–665).  The identifier check
uses capture group 2 of `(const|let|var)\s+(\w+)`, which is the same
identifier that `firstDeclName` captures. -/
def validateAIResponse (original fixed : Str) : Bool :=
  if fixed.isEmpty then false
  else if 300 < fixed.length then false
  else if strIncludes fixed "import ".data ∧ ¬strIncludes original "import ".data then false
  else if strIncludes fixed "flask".data ∨ strIncludes fixed "jsonify".data then false
  else if 4 < fixed.countP (· == dquote) then false
  else if (match firstDeclName original with
           | some v => !strIncludes fixed v
           | none => false) then false
  else if badPhrasesLegacy.any (fun p => strIncludes (lowerStr fixed) p) then false
  else true

/-!
## Legacy sanitizer `cleanAIResponse` (aiFixer.ts lines 545–629)

Also defined in the module but not called by the pipeline, which uses
`cleanAIResponseStrict`.
-/

/-- JavaScript `String.prototype.startsWith`. -/
def strStartsWith (s pat : Str) : Bool := pat.isPrefixOf s

/-- Ordered case-insensitive alternation at the head of the input: the
remainder after the first alternative that matches. -/
def dropFirstLitCI : List Str → Str → Option Str
  | [], _ => none
  | lit :: more, s =>
    match dropLitCI lit s with
    | some (_, r) => some r
    | none => dropFirstLitCI more s

/-- The alternatives of the anchored prefix replace at line 558, in source
order (so the longer `Here's the fixed code:` is tried before `Here's`). -/
def legacyBoilerplateList : List Str :=
  ["here".data ++ [apos] ++ "s the fixed code:".data,
   "fixed code:".data, "solution:".data, "output:".data,
   "your fixed code:".data, "answer:".data, "result:".data,
   "here".data ++ [apos] ++ "s".data,
   "fixed version:".data, "secure version:".data]

/-- `replace(/^(Here's the fixed code:|...)/i, '')` (line 558). -/
def stripLegacyBoilerplate (s : Str) : Str := (dropFirstLitCI legacyBoilerplateList s).getD s

/-- The alternatives of the trailing-pleasantry replace at line 559. -/
def pleasantryList : List Str :=
  ["that".data ++ [apos] ++ "s it!".data, "hope this helps!".data,
   "let me know if you need help".data]

/-- One pleasantry phrase matches here and, since the regex is
`/(...).*$/i` without the `s` or `m` flags, `.*$` then requires the rest of
the input to contain no newline. -/
def pleasantryAt (s : Str) : Bool :=
  match dropFirstLitCI pleasantryList s with
  | some r => !strIncludes r "\n".data
  | none => false

/-- `replace(/(That's it!|Hope this helps!|Let me know if you need help).*$/i, '')`
(line 559): at the leftmost position where a phrase matches on the last
line, everything from the phrase onwards is removed. -/
def stripPleasantry : Str → Str
  | [] => []
  | s@(c :: t) => if pleasantryAt s then [] else c :: stripPleasantry t

/-- The line-filter predicate at lines 562–570.  In the source the `&&`
chain binds tighter than the final `|| trimmed.includes('const') || ...`,
so any line containing `const`, `let` or `var` passes the filter
unconditionally; the embedding keeps that grouping. -/
def legacyLineKeep (line : Str) : Bool :=
  let trimmed := trimStr line
  ((trimmed.length != 0) &&
   !strStartsWith (lowerStr trimmed) "explanation".data &&
   !strStartsWith (lowerStr trimmed) "note:".data &&
   !strStartsWith (lowerStr trimmed) "this ".data &&
   !strIncludes (lowerStr trimmed) "vulnerability".data &&
   strIncludes trimmed "=".data) ||
  strIncludes trimmed "const".data || strIncludes trimmed "let".data ||
  strIncludes trimmed "var".data

/-- The fallback line finder at lines 576–582. -/
def legacyFallbackLine (line : Str) : Bool :=
  let trimmed := trimStr line
  (strIncludes trimmed "const ".data || strIncludes trimmed "let ".data ||
   strIncludes trimmed "var ".data || strIncludes trimmed ".textContent".data ||
   strIncludes trimmed "process.env".data) &&
  !strIncludes (lowerStr trimmed) "explanation".data

/-- Lines 589–592: remove wrapping quotes with `slice(1, -1)`. -/
def unwrapQuotes (s : Str) : Str :=
  if (strStartsWith s [dquote] ∧ strEndsWith s [dquote]) ∨
      (strStartsWith s [apos] ∧ strEndsWith s [apos]) then (s.drop 1).dropLast
  else s

/-- Lines 595–600: append a semicolon to unterminated declarations,
assignments and sink writes. -/
def legacySemicolon (s : Str) : Str :=
  if ¬s.isEmpty ∧ ¬strEndsWith s ";".data ∧ ¬strEndsWith s "\x7d".data ∧
      ¬strEndsWith s ")".data then
    if strIncludes s "const ".data ∨ strIncludes s "let ".data ∨
        strIncludes s "var ".data ∨ strIncludes s " = ".data ∨
        strIncludes s ".textContent".data ∨ strIncludes s ".innerHTML".data then
      s ++ ";".data
    else s
  else s

/-- Lines 604–607: when the result contains `import ` but does not start
with it, keep only `split('import ')[0].trim()`.  The original snippet is
not consulted (it is not even an argument of `cleanAIResponse`). -/
def importTruncate (s : Str) : Str :=
  if strIncludes s "import ".data ∧ ¬strStartsWith s "import ".data then
    trimStr (takeUntilMatch "import ".data s)
  else s

/-- Lines 610–616: cut trailing content after the first semicolon unless it
is empty or a `//` comment. -/
def semicolonCut (s : Str) : Str :=
  if strIncludes s ";".data ∧ firstIdx ';' s < s.length - 1 then
    let afterSemicolon := trimStr (s.drop (firstIdx ';' s + 1))
    if ¬afterSemicolon.isEmpty ∧ ¬strStartsWith afterSemicolon "//".data then
      s.take (firstIdx ';' s + 1)
    else s
  else s

/-- Lines 619–626: final corruption guard; `split('"').length` counts one
more than the number of double quotes. -/
def legacyFinalGuard (s : Str) : Str :=
  if 200 < s.length ∨ strIncludes s "```".data ∨
      strIncludes (lowerStr s) "explanation".data ∨
      strIncludes s "flask import".data ∨ strIncludes s "jsonify".data ∨
      4 < s.countP (· == dquote) + 1 then []
  else s

/-- `cleanAIResponse` (aiFixer.ts lines 545–629). -/
def cleanAIResponse (response : Str) : Str :=
  if response.isEmpty ∨ (trimStr response).length = 0 then []
  else
    let c1 := trimStr response
    let c2 := removeTicks (removeTriple (removeFences c1))
    let c3 := stripLegacyBoilerplate c2
    let c4 := stripPleasantry c3
    let c5 := match (splitNl c4).filter legacyLineKeep with
              | l :: _ => trimStr l
              | [] =>
                match (splitNl c4).find? legacyFallbackLine with
                | some l => trimStr l
                | none => []
    let c6 := trimStr c5
    let c7 := unwrapQuotes c6
    let c8 := legacySemicolon c7
    let c9 := importTruncate c8
    let c10 := semicolonCut c9
    legacyFinalGuard c10

/-!
## Orchestration: `getSecureRefactor` (aiFixer.ts lines 269–419) and
`SecureCodeActionProvider.applyAIFix` (codeActions.ts lines 348–410)

The external generative call is the one boundary: `AIEnv.aiResponse = none`
models the API call throwing (network/auth/quota), `some raw` models a raw
reply.  `engineAvailable` models both `checkAIAvailability()[engine]` and
the null test on the selected client, which read the same configuration.
The `issueType` argument of the source function only feeds the metrics
recorder and an `enhancedIssueType` value that is never used, so it does
not appear in the model.  The source returns the fixed text or the empty
string; the model additionally labels which branch produced the return, as
observable through the user-facing messages of each branch.
-/

/-- Which rewrite strategy produced an applied fix. -/
inductive Strategy
  | generative
  | deterministic
deriving DecidableEq

/-- Result of `getSecureRefactor`: a (nonempty) fix labelled with the branch
that produced it, or the empty-string failure return. -/
inductive FixResult
  | fixedWith (strategy : Strategy) (text : Str)
  | failed
deriving DecidableEq

/-- The configuration and boundary behaviour of one invocation. -/
structure AIEnv where
  useAIFirst : Bool
  engineAvailable : Bool
  aiResponse : Option Str
deriving DecidableEq

/-- `getSecureRefactor` (aiFixer.ts lines 269–419). -/
def getSecureRefactor (code : Str) (env : AIEnv) : FixResult :=
  let detected := detectIssueTypeFromCode code
  let earlyFix := if ¬env.useAIFirst = true ∨ ¬env.engineAvailable = true
                  then applyManualFix code detected else []
  if earlyFix ≠ [] then .fixedWith .deterministic earlyFix
  else if ¬env.engineAvailable = true then
    let manualFix := applyManualFix code detected
    if manualFix ≠ [] then .fixedWith .deterministic manualFix else .failed
  else
    match env.aiResponse with
    | none =>
      let manualFix := applyManualFix code detected
      if manualFix ≠ [] then .fixedWith .deterministic manualFix else .failed
    | some raw =>
      let cleanedResponse := cleanAIResponseStrict raw
      if ¬validateAIResponseStrict code cleanedResponse = true ∨
          ¬isStructurallySimilar code cleanedResponse = true then
        let manualFix := applyManualFix code detected
        if manualFix ≠ [] then .fixedWith .deterministic manualFix else .failed
      else .fixedWith .generative cleanedResponse

/-- Result of the `applyAIFix` command handler. -/
inductive ApplyOutcome
  | invalidInput
  | applied (strategy : Strategy) (text : Str)
  | noFixGenerated
deriving DecidableEq

/-- `SecureCodeActionProvider.applyAIFix` (codeActions.ts lines 348–410):
expand an empty or short selection to the full line, reject empty or
whitespace-only input, then run `getSecureRefactor` and apply its output
when nonempty. -/
def applyAIFix (selected lineText : Str) (env : AIEnv) : ApplyOutcome :=
  let originalCode := if selected.isEmpty ∨ (trimStr selected).length < 5 then lineText
                      else selected
  if originalCode.isEmpty ∨ (trimStr originalCode).length = 0 then .invalidInput
  else
    match getSecureRefactor originalCode env with
    | .fixedWith st t => if ¬(trimStr t).isEmpty then .applied st t else .noFixGenerated
    | .failed => .noFixGenerated

/-!
## Concrete inputs used by witnesses and counterexamples
-/

/-- The spec scenario input `const API_KEY = "sk-12345";`. -/
def apiKeySnippet : Str :=
  "const API_KEY = ".data ++ [dquote] ++ "sk-12345".data ++ [dquote] ++ ";".data

/-- The spec scenario output `const API_KEY = process.env.API_KEY || "default_api_key";`. -/
def apiKeyEnvFixed : Str :=
  "const API_KEY = process.env.API_KEY || ".data ++ [dquote] ++ "default_api_key".data
    ++ [dquote] ++ ";".data

/-- A hardcoded-password snippet, `const PASSWORD = "hunter2";`. -/
def passwordSnippet : Str :=
  "const PASSWORD = ".data ++ [dquote] ++ "hunter2".data ++ [dquote] ++ ";".data

/-!
## Claims
-/

/-- Claim C10: the deterministic rewriter never echoes its input — for every
snippet and category, `applyManualFix` returns the empty string or a string
different from the input; a match whose replacement leaves the snippet
unchanged is reported as no fix. -/
theorem C10_rewriter_never_echoes (code : Str) (issueType : List Char) :
    applyManualFix code issueType = [] ∨ applyManualFix code issueType ≠ code := by
  unfold applyManualFix
  cases manualFixRule issueType with
  | none => exact Or.inl rfl
  | some rule =>
    simp only
    split
    · rename_i h; exact Or.inr h
    · exact Or.inl rfl

/-- When the generative path is disabled or the engine is unavailable and
the deterministic rule rewrites the snippet, the first manual-fix block of
`getSecureRefactor` returns it. -/
theorem manual_first_deterministic (code : Str) (env : AIEnv)
    (hcond : env.useAIFirst = false ∨ env.engineAvailable = false)
    (hman : applyManualFix code (detectIssueTypeFromCode code) ≠ []) :
    getSecureRefactor code env =
      .fixedWith .deterministic (applyManualFix code (detectIssueTypeFromCode code)) := by
  have hc : ¬env.useAIFirst = true ∨ ¬env.engineAvailable = true := by
    rcases hcond with h | h <;> simp [h]
  simp only [getSecureRefactor]
  rw [if_pos hc, if_pos hman]

/-- Claim C1: fallback totality — when the generative path is disabled
(`useAIFirst = false`) or fails in any of its ways (engine unavailable, the
call throws, or the sanitized candidate is rejected by the strict validator
or the structural-similarity check), and the detected category's
deterministic pattern produces a rewrite, the operation still returns that
rewrite with the deterministic strategy. -/
theorem C1_fallback_totality (code : Str) (env : AIEnv)
    (hfail : env.useAIFirst = false ∨ env.engineAvailable = false ∨ env.aiResponse = none ∨
      (∃ raw, env.aiResponse = some raw ∧
        (validateAIResponseStrict code (cleanAIResponseStrict raw) = false ∨
         isStructurallySimilar code (cleanAIResponseStrict raw) = false)))
    (hman : applyManualFix code (detectIssueTypeFromCode code) ≠ []) :
    getSecureRefactor code env =
      .fixedWith .deterministic (applyManualFix code (detectIssueTypeFromCode code)) := by
  by_cases hd : env.useAIFirst = true ∧ env.engineAvailable = true
  · rcases hfail with h | h | h | h
    · exact absurd hd.1 (by simp [h])
    · exact absurd hd.2 (by simp [h])
    · simp [getSecureRefactor, hd.1, hd.2, h, hman]
    · obtain ⟨raw, hraw, hrej⟩ := h
      rcases hrej with h2 | h2 <;>
        simp [getSecureRefactor, hd.1, hd.2, hraw, hman, h2]
  · have hor : env.useAIFirst = false ∨ env.engineAvailable = false := by
      cases hu : env.useAIFirst with
      | false => exact Or.inl rfl
      | true =>
        cases he : env.engineAvailable with
        | false => exact Or.inr rfl
        | true => exact absurd ⟨hu, he⟩ hd
    exact manual_first_deterministic code env hor hman

/-- Witness for C1 on the spec's own scenario, for both a disabled
generative path and a failing one: input `const API_KEY = "sk-12345";`,
deterministic output `const API_KEY = process.env.API_KEY || "default_api_key";`;
the reply `bad reply` sanitizes to the empty candidate, which the validator
rejects. -/
theorem C1_fallback_totality_witness :
    applyManualFix apiKeySnippet (detectIssueTypeFromCode apiKeySnippet) = apiKeyEnvFixed ∧
    getSecureRefactor apiKeySnippet ⟨false, true, none⟩ =
      .fixedWith .deterministic (applyManualFix apiKeySnippet (detectIssueTypeFromCode apiKeySnippet)) ∧
    getSecureRefactor apiKeySnippet ⟨true, true, some "bad reply".data⟩ =
      .fixedWith .deterministic (applyManualFix apiKeySnippet (detectIssueTypeFromCode apiKeySnippet)) :=
  ⟨by decide,
   C1_fallback_totality apiKeySnippet ⟨false, true, none⟩ (Or.inl rfl) (by decide),
   C1_fallback_totality apiKeySnippet ⟨true, true, some "bad reply".data⟩
     (Or.inr (Or.inr (Or.inr ⟨"bad reply".data, rfl, Or.inl (by decide)⟩))) (by decide)⟩

/-- Counterexample to claim C2: with `preferGenerative = false` but the
engine available, a snippet with no matching deterministic pattern does not
fail with `NoFixAvailable` — the orchestrator falls through to the
generative rewriter, which here produces an applied generative fix. -/
theorem C2_cex_generative_invoked_when_disabled :
    (AIEnv.mk false true (some "element.innerText = safe".data)).useAIFirst = false ∧
    getSecureRefactor "element.innerText = userInput".data
        ⟨false, true, some "element.innerText = safe".data⟩ =
      .fixedWith .generative "element.innerText = safe;".data := by
  exact ⟨rfl, by decide⟩

/-- Claim C2 as amended: when the engine is unavailable the operation is
exactly deterministic-or-fail (the generative path is never consulted);
when `preferGenerative` is false and the deterministic rewrite succeeds,
that rewrite is returned deterministically, whatever the engine state and
whatever the generative reply would have been; but when the engine is
available and `preferGenerative` is false, a failed deterministic rewrite
falls through to the generative path, behaving as if `preferGenerative`
were true, instead of failing with NoFixAvailable. -/
theorem C2_skip_to_deterministic_amended :
    (∀ (code : Str) (env : AIEnv), env.engineAvailable = false →
      getSecureRefactor code env =
        if applyManualFix code (detectIssueTypeFromCode code) ≠ [] then
          .fixedWith .deterministic (applyManualFix code (detectIssueTypeFromCode code))
        else .failed) ∧
    (∀ (code : Str) (env : AIEnv), env.useAIFirst = false →
      applyManualFix code (detectIssueTypeFromCode code) ≠ [] →
      getSecureRefactor code env =
        .fixedWith .deterministic (applyManualFix code (detectIssueTypeFromCode code))) ∧
    (∀ (code : Str) (env : AIEnv), env.useAIFirst = false → env.engineAvailable = true →
      applyManualFix code (detectIssueTypeFromCode code) = [] →
      getSecureRefactor code env = getSecureRefactor code ⟨true, true, env.aiResponse⟩) := by
  refine ⟨?_, ?_, ?_⟩
  · intro code env h
    simp only [getSecureRefactor, h]
    split <;> simp_all
  · intro code env h1 hm
    exact manual_first_deterministic code env (Or.inl h1) hm
  · intro code env h1 h2 hm
    simp only [getSecureRefactor, h1, h2, hm]
    simp

/-- Witness for the amended C2: an unavailable engine on an unmatched
snippet yields the failure return; a matched snippet with the generative
path disabled but the engine available and a reply ready is still fixed
deterministically; and the fall-through case agrees with the
`preferGenerative = true` run. -/
theorem C2_skip_to_deterministic_amended_witness :
    getSecureRefactor "foo".data ⟨true, false, none⟩ =
      (if applyManualFix "foo".data (detectIssueTypeFromCode "foo".data) ≠ [] then
        .fixedWith .deterministic (applyManualFix "foo".data (detectIssueTypeFromCode "foo".data))
      else .failed) ∧
    getSecureRefactor passwordSnippet ⟨false, true, some "x = 1;".data⟩ =
      .fixedWith .deterministic
        (applyManualFix passwordSnippet (detectIssueTypeFromCode passwordSnippet)) ∧
    getSecureRefactor "foo".data ⟨false, true, none⟩ =
      getSecureRefactor "foo".data ⟨true, true, none⟩ :=
  ⟨C2_skip_to_deterministic_amended.1 "foo".data ⟨true, false, none⟩ rfl,
   C2_skip_to_deterministic_amended.2.1 passwordSnippet ⟨false, true, some "x = 1;".data⟩
     rfl (by decide),
   C2_skip_to_deterministic_amended.2.2 "foo".data ⟨false, true, none⟩ rfl rfl (by decide)⟩

/-- Counterexample to claim C3: the validator on the active path accepts a
single-line candidate containing the foreign-framework tokens `flask` and
`jsonify`, so foreign-ecosystem content is not rejected. -/
theorem C3_cex_foreign_tokens_accepted :
    validateAIResponseStrict "const x = a;".data "const x = flask.jsonify(a);".data = true ∧
    strIncludes "const x = flask.jsonify(a);".data "flask".data = true ∧
    strIncludes "const x = flask.jsonify(a);".data "jsonify".data = true := by decide

/-- Claim C3 as amended: the strict validator (the one the pipeline runs)
rejects every multi-line candidate regardless of category, but does not
check foreign-ecosystem tokens; those are rejected only by the legacy
`validateAIResponse`, which rejects any candidate containing `flask` or
`jsonify`, and any candidate containing an `import ` token when the
original does not contain one. -/
theorem C3_validator_rejects_corruption_amended :
    (∀ original fixed : Str, strIncludes fixed "\n".data = true →
      validateAIResponseStrict original fixed = false) ∧
    (∀ original fixed : Str,
      strIncludes fixed "flask".data = true ∨ strIncludes fixed "jsonify".data = true →
      validateAIResponse original fixed = false) ∧
    (∀ original fixed : Str, strIncludes fixed "import ".data = true →
      strIncludes original "import ".data = false →
      validateAIResponse original fixed = false) := by
  refine ⟨?_, ?_, ?_⟩
  · intro original fixed h
    unfold validateAIResponseStrict
    repeat' split
    all_goals simp_all
  · intro original fixed h
    unfold validateAIResponse
    repeat' split
    all_goals simp_all
  · intro original fixed h1 h2
    unfold validateAIResponse
    repeat' split
    all_goals simp_all

/-- Witness for the amended C3 at concrete corrupted candidates: a
multi-line reply, a flask/jsonify reply and a reply with a foreign
`import ` token absent from the original. -/
theorem C3_validator_rejects_corruption_amended_witness :
    validateAIResponseStrict "const x = a;".data "const x = 1;\nconst y = 2;".data = false ∧
    validateAIResponse "const x = a;".data "const x = flask.jsonify(a);".data = false ∧
    validateAIResponse "const x = a;".data "import flask; const x = a;".data = false :=
  ⟨C3_validator_rejects_corruption_amended.1 _ _ (by decide),
   C3_validator_rejects_corruption_amended.2.1 _ _ (Or.inl (by decide)),
   C3_validator_rejects_corruption_amended.2.2 _ _ (by decide) (by decide)⟩

/-!
## Substring infrastructure used by the remaining claims
-/

theorem includes_iff_part (s pat : Str) : strIncludes s pat = true ↔ pat <:+: s := by
  induction s with
  | nil =>
    simp only [strIncludes, List.isEmpty_iff, List.infix_nil]
  | cons c t ih =>
    simp only [strIncludes, Bool.or_eq_true, ih, List.infix_cons_iff,
      List.isPrefixOf_iff_prefix]

theorem not_includes_of_part {big small pat : Str} (hinf : small <:+: big)
    (h : strIncludes big pat = false) : strIncludes small pat = false := by
  rcases hb : strIncludes small pat with _ | _
  · rfl
  · have := (includes_iff_part small pat).mp hb
    have : pat <:+: big := this.trans hinf
    rw [(includes_iff_part big pat).mpr this] at h
    cases h

theorem trimStr_part (s : Str) : trimStr s <:+: s := by
  unfold trimStr
  have h1 : s.dropWhile isWsChar <:+ s := List.dropWhile_suffix _
  have h2 : ((s.dropWhile isWsChar).reverse.dropWhile isWsChar).reverse <+: s.dropWhile isWsChar := by
    rw [← List.reverse_suffix]
    rw [List.reverse_reverse]
    exact List.dropWhile_suffix _
  exact (List.IsPrefix.isInfix h2).trans (List.IsSuffix.isInfix h1)

theorem trimStr_nil_all_ws {s : Str} (h : trimStr s = []) : ∀ c ∈ s, isWsChar c := by
  unfold trimStr at h
  have h1 : (s.dropWhile isWsChar).reverse.dropWhile isWsChar = [] := by
    have := congrArg List.reverse h
    rwa [List.reverse_reverse, List.reverse_nil] at this
  have h2 : ∀ c ∈ (s.dropWhile isWsChar).reverse, isWsChar c := List.dropWhile_eq_nil_iff.mp h1
  intro c hc
  rw [← List.takeWhile_append_dropWhile isWsChar s] at hc
  rcases List.mem_append.mp hc with hm | hm
  · exact List.mem_takeWhile_imp hm
  · exact h2 c (List.mem_reverse.mpr hm)

theorem trim_pos_of_includes_dot {s pat : Str} (hd : '.' ∈ pat)
    (h : strIncludes s pat = true) : ¬s.isEmpty = true ∧ 0 < (trimStr s).length := by
  have hinf : pat <:+: s := (includes_iff_part s pat).mp h
  have hdot : '.' ∈ s := List.IsInfix.mem hd hinf
  constructor
  · cases s with
    | nil => cases hdot
    | cons a t => simp
  · rcases Nat.eq_zero_or_pos (trimStr s).length with hz | hp
    · have hnil : trimStr s = [] := List.length_eq_zero.mp hz
      have := trimStr_nil_all_ws hnil '.' hdot
      simp [isWsChar] at this
    · exact hp

theorem validate_strict_coherence {o f : Str}
    (hg : ¬o.isEmpty = true ∧ 0 < (trimStr o).length)
    (h : validateAIResponseStrict o f = true) : coherenceChecks o f = true := by
  unfold validateAIResponseStrict at h
  repeat' split at h
  all_goals simp_all

/-- Counterexample to claim C7: for the original `element.innerHTML = userInput;`
the validator accepts the candidate `element.innerHTML = escapeHtml(userInput);`,
which still contains the unsafe sink `.innerHTML` and does not contain
`.textContent` — contradicting "does not contain `.innerHTML`, or contains
`.textContent`". -/
theorem C7_cex_unsafe_sink_accepted :
    validateAIResponseStrict "element.innerHTML = userInput;".data
        "element.innerHTML = escapeHtml(userInput);".data = true ∧
    strIncludes "element.innerHTML = escapeHtml(userInput);".data ".innerHTML".data = true ∧
    strIncludes "element.innerHTML = escapeHtml(userInput);".data ".textContent".data = false := by
  decide

/-- Claim C7 as amended: for an original containing `.innerHTML`, an
accepted candidate contains `.textContent` or still contains `.innerHTML`
(the check rejects only candidates that dropped both sinks). -/
theorem C7_xss_coherence_amended (original fixed : Str)
    (ho : strIncludes original ".innerHTML".data = true)
    (hv : validateAIResponseStrict original fixed = true) :
    strIncludes fixed ".textContent".data = true ∨
    strIncludes fixed ".innerHTML".data = true := by
  have hg := trim_pos_of_includes_dot (by decide) ho
  have hc := validate_strict_coherence hg hv
  unfold coherenceChecks at hc
  split at hc; · exact absurd hc (by simp)
  split at hc; · exact absurd hc (by simp)
  split at hc
  · exact absurd hc (by simp)
  · rename_i h3
    by_cases hb : strIncludes fixed ".textContent".data = true
    · exact Or.inl hb
    · by_cases hcl : strIncludes fixed ".innerHTML".data = true
      · exact Or.inr hcl
      · exact absurd ⟨ho, hb, hcl⟩ h3

/-- Witness for the amended C7, on the spec's own scenario candidate
`element.textContent = userInput;`. -/
theorem C7_xss_coherence_amended_witness :
    strIncludes "element.textContent = userInput;".data ".textContent".data = true ∨
    strIncludes "element.textContent = userInput;".data ".innerHTML".data = true :=
  C7_xss_coherence_amended "element.innerHTML = userInput;".data
    "element.textContent = userInput;".data (by decide) (by decide)

/-- A snippet satisfying two trigger predicates at once. -/
def overlapSnippet : Str :=
  "API_KEY = ".data ++ [dquote] ++ "x".data ++ [dquote] ++ ".innerHTML".data

/-- Counterexample to claim C8: the per-category trigger predicates are not
disjoint — this snippet satisfies both the `hardcoded-api-key` and the
`xss-vulnerability` triggers; classification order resolves the tie. -/
theorem C8_cex_triggers_overlap :
    triggerApiKey (trimStr overlapSnippet) = true ∧
    triggerXss (trimStr overlapSnippet) = true ∧
    detectIssueTypeFromCode overlapSnippet = "hardcoded-api-key".data := by decide

/-- Claim C8 as amended: the classifier is total — it always returns exactly
one value of the closed six-value set, with `security-issue` (the
unclassified value) as default when no trigger matches; trigger predicates
may overlap, and the classification order is the tie-break: each category
is returned exactly when its trigger holds and every earlier trigger fails,
and an earlier trigger wins regardless of later ones. -/
theorem C8_classifier_total_amended :
    (∀ code : Str, detectIssueTypeFromCode code ∈
      ["hardcoded-api-key".data, "hardcoded-password".data, "xss-vulnerability".data,
       "code-injection".data, "insecure-random".data, "security-issue".data]) ∧
    (∀ code : Str, triggerApiKey (trimStr code) = false → triggerPassword (trimStr code) = false →
      triggerXss (trimStr code) = false → triggerEval (trimStr code) = false →
      triggerRandom (trimStr code) = false →
      detectIssueTypeFromCode code = "security-issue".data) ∧
    (∀ code : Str, triggerApiKey (trimStr code) = true →
      detectIssueTypeFromCode code = "hardcoded-api-key".data) ∧
    (∀ code : Str, triggerApiKey (trimStr code) = false →
      triggerPassword (trimStr code) = true →
      detectIssueTypeFromCode code = "hardcoded-password".data) ∧
    (∀ code : Str, triggerApiKey (trimStr code) = false →
      triggerPassword (trimStr code) = false → triggerXss (trimStr code) = true →
      detectIssueTypeFromCode code = "xss-vulnerability".data) ∧
    (∀ code : Str, triggerApiKey (trimStr code) = false →
      triggerPassword (trimStr code) = false → triggerXss (trimStr code) = false →
      triggerEval (trimStr code) = true →
      detectIssueTypeFromCode code = "code-injection".data) ∧
    (∀ code : Str, triggerApiKey (trimStr code) = false →
      triggerPassword (trimStr code) = false → triggerXss (trimStr code) = false →
      triggerEval (trimStr code) = false → triggerRandom (trimStr code) = true →
      detectIssueTypeFromCode code = "insecure-random".data) := by
  refine ⟨?_, ?_, ?_, ?_, ?_, ?_, ?_⟩
  · intro code
    simp only [detectIssueTypeFromCode]
    repeat' split
    all_goals decide
  · intro code h1 h2 h3 h4 h5
    simp [detectIssueTypeFromCode, h1, h2, h3, h4, h5]
  · intro code h
    simp [detectIssueTypeFromCode, h]
  · intro code h1 h2
    simp [detectIssueTypeFromCode, h1, h2]
  · intro code h1 h2 h3
    simp [detectIssueTypeFromCode, h1, h2, h3]
  · intro code h1 h2 h3 h4
    simp [detectIssueTypeFromCode, h1, h2, h3, h4]
  · intro code h1 h2 h3 h4 h5
    simp [detectIssueTypeFromCode, h1, h2, h3, h4, h5]

/-- Witness for the amended C8: the default classification and one ordered
classification per category. -/
theorem C8_classifier_total_amended_witness :
    detectIssueTypeFromCode "hello world".data = "security-issue".data ∧
    detectIssueTypeFromCode overlapSnippet = "hardcoded-api-key".data ∧
    detectIssueTypeFromCode passwordSnippet = "hardcoded-password".data ∧
    detectIssueTypeFromCode "element.innerHTML = x".data = "xss-vulnerability".data ∧
    detectIssueTypeFromCode "eval(x)".data = "code-injection".data ∧
    detectIssueTypeFromCode "Math.random()".data = "insecure-random".data :=
  ⟨C8_classifier_total_amended.2.1 "hello world".data
      (by decide) (by decide) (by decide) (by decide) (by decide),
   C8_classifier_total_amended.2.2.1 overlapSnippet (by decide),
   C8_classifier_total_amended.2.2.2.1 passwordSnippet (by decide) (by decide),
   C8_classifier_total_amended.2.2.2.2.1 "element.innerHTML = x".data
      (by decide) (by decide) (by decide),
   C8_classifier_total_amended.2.2.2.2.2.1 "eval(x)".data
      (by decide) (by decide) (by decide) (by decide),
   C8_classifier_total_amended.2.2.2.2.2.2 "Math.random()".data
      (by decide) (by decide) (by decide) (by decide) (by decide)⟩

/-- Claim C9: an empty or whitespace-only snippet is invalid input — after
the empty-selection expansion to the full line, the command handler rejects
it with the invalid-input error before any fixing is attempted, for every
engine configuration, so no successful fix is ever returned for it. -/
theorem C9_empty_snippet_invalid (selected lineText : Str) (env : AIEnv)
    (hs : (trimStr selected).length = 0) (hl : (trimStr lineText).length = 0) :
    applyAIFix selected lineText env = .invalidInput := by
  have h5 : (trimStr selected).length < 5 := by omega
  simp [applyAIFix, h5, hl]

/-- Witness for C9: a whitespace-only selection on an empty line is
rejected even with the engine available and a plausible reply ready. -/
theorem C9_empty_snippet_invalid_witness :
    applyAIFix "   ".data "".data ⟨true, true, some "const x = 1;".data⟩ = .invalidInput :=
  C9_empty_snippet_invalid "   ".data "".data ⟨true, true, some "const x = 1;".data⟩
    (by decide) (by decide)

theorem zip_all_map_eq {α β : Type} [BEq β] [LawfulBEq β] (f : α → β) :
    ∀ l1 l2 : List α, l1.length = l2.length →
      ((l1.zip l2).all fun p => f p.1 == f p.2) = true → l1.map f = l2.map f := by
  intro l1
  induction l1 with
  | nil =>
    intro l2 hlen _
    cases l2 with
    | nil => rfl
    | cons b t2 => simp at hlen
  | cons a t ih =>
    intro l2 hlen hall
    cases l2 with
    | nil => simp at hlen
    | cons b t2 =>
      simp only [List.zip_cons_cons, List.all_cons, Bool.and_eq_true, beq_iff_eq] at hall
      simp only [List.map_cons, hall.1]
      rw [ih t2 (by simpa using hlen) hall.2]

theorem generative_fix_validated {code : Str} {env : AIEnv} {t : Str}
    (h : getSecureRefactor code env = .fixedWith .generative t) :
    validateAIResponseStrict code t = true ∧ isStructurallySimilar code t = true := by
  simp only [getSecureRefactor] at h
  repeat' split at h
  all_goals simp_all

theorem similar_decl_lists {o f : Str} (hne : (trimStr o).length ≠ 0)
    (hsim : isStructurallySimilar o f = true) :
    (extractDecls o).map (fun m => stripDeclKw m.1) =
      (extractDecls f).map (fun m => stripDeclKw m.1) ∧
    (extractDecls o).length = (extractDecls f).length := by
  have hg : ¬(o.isEmpty = true ∨ (trimStr o).length = 0) := by
    rintro (he | hz)
    · have hnil : o = [] := List.isEmpty_iff.mp he
      subst hnil
      exact hne rfl
    · exact hne hz
  simp only [isStructurallySimilar] at hsim
  rw [if_neg hg] at hsim
  by_cases hlen : (extractDecls o).length = (extractDecls f).length
  · refine ⟨?_, hlen⟩
    rw [if_neg (fun hcon => hcon hlen)] at hsim
    exact zip_all_map_eq _ _ _ hlen hsim
  · rw [if_pos hlen] at hsim
    cases hsim

/-- The deterministic output for `let Math.random()`. -/
def randomFixed : Str :=
  "let crypto.getRandomValues(new Uint32Array(1))[0] / (0xFFFFFFFF + 1) // Crypto-secure random".data

/-- Counterexample to claim C4: the deterministic strategy accepts the fix
for `let Math.random()`, whose only declared identifier (per the
declaration-site pattern) is `Math`, yet the output contains neither the
identifier `Math` nor an equal declaration list — so identifier
preservation does not hold for every accepted fix of either strategy. -/
theorem C4_cex_deterministic_drops_identifier :
    getSecureRefactor "let Math.random()".data ⟨false, false, none⟩ =
      .fixedWith .deterministic randomFixed ∧
    (extractDecls "let Math.random()".data).map (fun m => m.2) = ["Math".data] ∧
    strIncludes randomFixed "Math".data = false := by decide

/-- Claim C4 as amended: identifier preservation holds for every accepted
generative fix — when the pipeline returns a generative fix for a
non-whitespace snippet, the declaration lists of input and output have the
same length and the same identifiers in order (so every declared identifier
of the input appears in the output as the same declaration).  The
deterministic strategy is exempt: its rewrite may overwrite a declaration
site, as the counterexample shows. -/
theorem C4_identifier_preservation_amended (code : Str) (env : AIEnv) (t : Str)
    (h : getSecureRefactor code env = .fixedWith .generative t)
    (hne : (trimStr code).length ≠ 0) :
    (extractDecls code).map (fun m => stripDeclKw m.1) =
      (extractDecls t).map (fun m => stripDeclKw m.1) ∧
    (extractDecls code).length = (extractDecls t).length :=
  similar_decl_lists hne (generative_fix_validated h).2

/-- A well-formed generative reply for the API-key scenario. -/
def envReply : Str := "const API_KEY = process.env.API_KEY;".data

/-- Witness for the amended C4 on the API-key scenario: the accepted
generative fix preserves the declaration list of the input. -/
theorem C4_identifier_preservation_amended_witness :
    (extractDecls apiKeySnippet).map (fun m => stripDeclKw m.1) =
      (extractDecls envReply).map (fun m => stripDeclKw m.1) ∧
    (extractDecls apiKeySnippet).length = (extractDecls envReply).length :=
  C4_identifier_preservation_amended apiKeySnippet ⟨true, true, some envReply⟩ envReply
    (by decide) (by decide)

/-- The spec's `ValidationVerdict` record: an accepted bit plus the list of
failure reasons. -/
structure ValidationVerdict where
  accepted : Bool
  reasons : List String
deriving DecidableEq

/-- Modelled from the spec's words for the refinement comparison of claim
C5: every check of `validateAIResponseStrict` is evaluated and each failed
check contributes one reason; nothing short-circuits.  The check conditions
are the nine early-return conditions of the source validator, with the
original-snippet guard of lines 237–255 distributed over the four checks it
encloses. -/
def strictCheckReasons (original fixed : Str) : List String :=
  (if fixed.isEmpty then ["empty candidate"] else []) ++
  (if strIncludes fixed "\n".data then ["not a single line"] else []) ++
  (if 200 < fixed.length then ["longer than 200 characters"] else []) ++
  (if ¬strIncludes fixed "=".data ∧ ¬strIncludes fixed ".".data then
    ["no assignment or member access token"] else []) ++
  (if badPhrasesStrict.any (fun p => strIncludes (lowerStr fixed) p) then
    ["contains a bad phrase"] else []) ++
  (if (¬original.isEmpty ∧ 0 < (trimStr original).length) ∧
      (match firstDeclName original with
       | some v => !strIncludes fixed v
       | none => false) = true then ["declared identifier not preserved"] else []) ++
  (if (¬original.isEmpty ∧ 0 < (trimStr original).length) ∧
      strIncludes original "API_KEY".data ∧ ¬strIncludes fixed "API_KEY".data then
    ["API_KEY token lost"] else []) ++
  (if (¬original.isEmpty ∧ 0 < (trimStr original).length) ∧
      strIncludes original "PASSWORD".data ∧ ¬strIncludes fixed "PASSWORD".data then
    ["PASSWORD token lost"] else []) ++
  (if (¬original.isEmpty ∧ 0 < (trimStr original).length) ∧
      strIncludes original ".innerHTML".data ∧ ¬strIncludes fixed ".textContent".data ∧
      ¬strIncludes fixed ".innerHTML".data then
    ["unsafe sink dropped without safe sink"] else [])

/-- The all-checks-evaluated verdict of the spec's validator contract. -/
def validateVerdict (original fixed : Str) : ValidationVerdict :=
  ⟨(strictCheckReasons original fixed).isEmpty, strictCheckReasons original fixed⟩

set_option maxHeartbeats 2000000 in
theorem validate_strict_eq_verdict (o f : Str) :
    validateAIResponseStrict o f = (validateVerdict o f).accepted := by
  unfold validateAIResponseStrict validateVerdict strictCheckReasons coherenceChecks
  repeat' split
  all_goals simp_all

/-- Counterexample to claim C5: the validator returns only a boolean, so a
candidate failing three checks (multi-line, no code token, bad phrase) and a
candidate failing one check (identifier not preserved) produce identical
results — no verdict carrying the failure reasons is returned, contradicting
"reasons accumulate one entry for every failed check". -/
theorem C5_cex_indistinguishable_failures :
    validateAIResponseStrict "const x = 1;".data "note: fix\nmore".data =
      validateAIResponseStrict "const x = 1;".data "const y = 1;".data ∧
    (validateVerdict "const x = 1;".data "note: fix\nmore".data).reasons.length = 3 ∧
    (validateVerdict "const x = 1;".data "const y = 1;".data).reasons.length = 1 := by decide

/-- Claim C5 as amended: `validateAIResponseStrict` returns only the
accepted boolean; because the checks are pure, its early-return evaluation
agrees exactly with the accepted bit of the spec's all-checks-evaluated
verdict, whose reasons list is empty precisely when the candidate is
accepted — but the reasons themselves are not produced by the code. -/
theorem C5_validator_boolean_only (original fixed : Str) :
    validateAIResponseStrict original fixed = (validateVerdict original fixed).accepted ∧
    ((validateVerdict original fixed).accepted = true ↔
      (validateVerdict original fixed).reasons = []) := by
  refine ⟨validate_strict_eq_verdict original fixed, ?_⟩
  simp [validateVerdict, List.isEmpty_iff]

theorem takeUntilMatch_isPre (pat : Str) : ∀ s : Str, takeUntilMatch pat s <+: s := by
  intro s
  induction s with
  | nil => simp [takeUntilMatch]
  | cons c t ih =>
    unfold takeUntilMatch
    split
    · exact List.nil_prefix
    · obtain ⟨w, hw⟩ := ih
      exact ⟨w, by rw [List.cons_append, hw]⟩

theorem takeUntilMatch_not_includes {pat : Str} (hp : pat ≠ []) :
    ∀ s : Str, strIncludes (takeUntilMatch pat s) pat = false := by
  intro s
  induction s with
  | nil =>
    cases pat with
    | nil => exact absurd rfl hp
    | cons a b => simp [takeUntilMatch, strIncludes]
  | cons c t ih =>
    unfold takeUntilMatch
    split
    · cases pat with
      | nil => exact absurd rfl hp
      | cons a b => simp [strIncludes]
    · rename_i hpre
      simp only [strIncludes, Bool.or_eq_false_iff]
      refine ⟨?_, ih⟩
      rcases hq : pat.isPrefixOf (c :: takeUntilMatch pat t) with _ | _
      · rfl
      · have h1 : pat <+: c :: takeUntilMatch pat t := (List.isPrefixOf_iff_prefix).mp hq
        have h2 : c :: takeUntilMatch pat t <+: c :: t := by
          obtain ⟨w, hw⟩ := takeUntilMatch_isPre pat t
          exact ⟨w, by rw [List.cons_append, hw]⟩
        have := (List.isPrefixOf_iff_prefix).mpr (h1.trans h2)
        exact absurd this (by simpa using hpre)

theorem importTruncate_inv (s : Str) :
    importTruncate s = [] ∨ strStartsWith (importTruncate s) "import ".data = true ∨
    strIncludes (importTruncate s) "import ".data = false := by
  unfold importTruncate
  split
  · right; right
    have h1 : strIncludes (takeUntilMatch "import ".data s) "import ".data = false :=
      takeUntilMatch_not_includes (by decide) s
    exact not_includes_of_part (trimStr_part _) h1
  · rename_i hcond
    by_cases hst : strStartsWith s "import ".data = true
    · exact Or.inr (Or.inl hst)
    · by_cases hin : strIncludes s "import ".data = true
      · exact absurd ⟨hin, hst⟩ hcond
      · exact Or.inr (Or.inr (by simpa using hin))

theorem take_firstIdx_keeps_import {s : Str}
    (hst : strStartsWith s "import ".data = true) :
    strStartsWith (s.take (firstIdx ';' s + 1)) "import ".data = true := by
  obtain ⟨u, rfl⟩ : ∃ u, s = "import ".data ++ u := by
    obtain ⟨u, hu⟩ := (List.isPrefixOf_iff_prefix).mp hst
    exact ⟨u, hu.symm⟩
  have hidx : firstIdx ';' ("import ".data ++ u) = firstIdx ';' u + 7 := rfl
  rw [hidx]
  have htake : ("import ".data ++ u).take (firstIdx ';' u + 7 + 1) =
      "import ".data ++ u.take (firstIdx ';' u + 1) := rfl
  rw [htake]
  exact (List.isPrefixOf_iff_prefix).mpr (List.prefix_append _ _)

theorem semicolonCut_inv {s : Str}
    (h : s = [] ∨ strStartsWith s "import ".data = true ∨
      strIncludes s "import ".data = false) :
    semicolonCut s = [] ∨ strStartsWith (semicolonCut s) "import ".data = true ∨
    strIncludes (semicolonCut s) "import ".data = false := by
  simp only [semicolonCut]
  split
  · split
    · rcases h with hnil | hst | hni
      · subst hnil; simp
      · exact Or.inr (Or.inl (take_firstIdx_keeps_import hst))
      · exact Or.inr (Or.inr
          (not_includes_of_part (List.IsPrefix.isInfix (List.take_prefix _ _)) hni))
    · exact h
  · exact h

theorem clean_legacy_import_inv (s : Str) :
    legacyFinalGuard (semicolonCut (importTruncate s)) = [] ∨
    strStartsWith (legacyFinalGuard (semicolonCut (importTruncate s))) "import ".data = true ∨
    strIncludes (legacyFinalGuard (semicolonCut (importTruncate s))) "import ".data = false := by
  have h2 := semicolonCut_inv (importTruncate_inv s)
  unfold legacyFinalGuard
  split
  · exact Or.inl rfl
  · exact h2

/-- Counterexample to claim C6: the sanitizer on the active path
(`cleanAIResponseStrict`, the one `getSecureRefactor` calls) has no import
truncation step at all — a reply carrying a foreign `import` token flows
through sanitization and validation into an applied generative fix although
the original snippet contains no such token. -/
theorem C6_cex_no_import_truncation_on_active_path :
    getSecureRefactor "const a = c;".data
        ⟨true, true, some "const a = b import flask".data⟩ =
      .fixedWith .generative "const a = b import flask;".data ∧
    strIncludes "const a = b import flask;".data "import ".data = true ∧
    strIncludes "const a = c;".data "import ".data = false := by decide

/-- Claim C6 as amended: only the legacy sanitizer `cleanAIResponse`
performs an import truncation, and its condition is "contains `import ` but
does not start with it" — the original snippet is not consulted (it is not
an argument).  Consequently the legacy sanitizer's output never carries an
interior import token: it is empty, starts with `import `, or contains no
`import ` at all.  The strict sanitizer used by the pipeline has no such
step (see the counterexample). -/
theorem C6_import_truncation_amended (raw : Str) :
    cleanAIResponse raw = [] ∨
    strStartsWith (cleanAIResponse raw) "import ".data = true ∨
    strIncludes (cleanAIResponse raw) "import ".data = false := by
  unfold cleanAIResponse
  split
  · exact Or.inl rfl
  · exact clean_legacy_import_inv _
